import Mathlib

/-!
Shallow embedding of the FramI2C driver (src/src/FramI2C.cpp, src/src/FramI2C.h)
and proofs about its chunked transfer engine, validation, geometry,
bus-result mapping, device-identity protocol and typed accessors.

Machine integers are modelled as Nat with explicit `% 2^w` where the source's
fixed-width arithmetic can wrap (uint8 bus-address sums, uint16 FRAM chunk
addresses).  The external Arduino Wire transport is modelled as an oracle
(`Bus`) that answers each queue / endTransmission / requestFrom call; device
memory is a function busAddr -> framAddr -> byte threaded through the chunk
loops.  The while-loops of the source are embedded with a fuel argument; the
top-level entry points pass `byteCount` as fuel, which is exact because every
iteration transfers at least one byte whenever the usable chunk size is
positive (it is 30, 31 or 32 in every reachable state).
-/

namespace FramI2C

/-- Driver result codes, from `FramI2C::ResultCode` in FramI2C.h. -/
inductive ResultCode where
  | Success
  | I2CBufferOverflowError
  | I2CAddressNackError
  | I2CDataNackError
  | I2CLineBusyError
  | I2CReadError
  | I2CWriteError
  | I2CUnknownTwiResultCode
  | NullPtrError
  | NotInitializedError
  | AllreadyInitializedError
  | UnsupportedDensityError
  | InvalidPageError
  | PageSizeRangeError
  | BufferAllocationFailedError
  | BufferOverflowError
  | Uninitialized
  deriving DecidableEq, Repr

/-- The numeric codes the Wire library returns (`enum TwiResultCode`). -/
def TwiSuccess : Nat := 0
def TwiBufferOverflow : Nat := 1
def TwiAddressNack : Nat := 2
def TwiDataNack : Nat := 3
def TwiLineBusy : Nat := 4

/-- `FramI2C::twiCodeToResultCode`.  The source's switch statement has cases
for `TwiSuccess`, `TwiAddressNack`, `TwiDataNack` and `TwiLineBusy` only;
every other code (including `TwiBufferOverflow`) keeps the initial value
`I2CUnknownTwiResultCode`. -/
def twiCodeToResultCode (twiCode : Nat) : ResultCode :=
  if twiCode = TwiSuccess then ResultCode.Success
  else if twiCode = TwiAddressNack then ResultCode.I2CAddressNackError
  else if twiCode = TwiDataNack then ResultCode.I2CDataNackError
  else if twiCode = TwiLineBusy then ResultCode.I2CLineBusyError
  else ResultCode.I2CUnknownTwiResultCode

/-- Device state: the private fields of class `FramI2C`.  The scratch buffer
pointer `typebuffer_` is modelled by its address (`none` = nullptr). -/
structure FramState where
  density_ : Nat
  i2cAddress_ : Nat
  memorySize_ : Nat
  pageSize_ : Nat
  pageCount_ : Nat
  addressBytesCount_ : Nat
  typebufferSize_ : Nat
  typebuffer_ : Option Nat
  initialized_ : Bool
  deviceIdChecked_ : Bool
  deviceIdSupported_ : Bool
  manufacturerId_ : Nat
  productId_ : Nat
  deriving DecidableEq, Repr

/-- The default-constructed state (all member initializers in FramI2C.h). -/
def initState : FramState :=
  { density_ := 0, i2cAddress_ := 0, memorySize_ := 0, pageSize_ := 0,
    pageCount_ := 0, addressBytesCount_ := 0, typebufferSize_ := 0,
    typebuffer_ := none, initialized_ := false, deviceIdChecked_ := false,
    deviceIdSupported_ := false, manufacturerId_ := 0, productId_ := 0 }

/-- `FramI2C::SupportedDensitiesInKiloBits` (without the terminating 0
sentinel; the sentinel only marks the end of the C array). -/
def SupportedDensitiesInKiloBits : List Nat := [4, 16, 64, 128, 256, 512, 1024]

/-- `FramI2C::isDensitySupported`: linear scan of the density table. -/
def isDensitySupported (densityInKiloBits : Nat) : Bool :=
  SupportedDensitiesInKiloBits.contains densityInKiloBits

/-- `FramI2C::densityToMemorySize`: density (kilobits) to bytes. -/
def densityToMemorySize (density : Nat) : Nat :=
  if isDensitySupported density then density * 1024 / 8 else 0

/-- `FramI2C::densityToPageSize`: the page-size tiering of the source. -/
def densityToPageSize (density : Nat) : Nat :=
  if isDensitySupported density = false then 0
  else if density ≤ 16 then 0x100
  else if density ≤ 256 then densityToMemorySize density
  else 0x10000

/-- `FramI2C::begin`.  `alloc` models the result of `malloc(typebufferSize)`
(`none` = allocation failure, `some p` = returned pointer).  Note that the
source assigns `pageSize_` before the buffer-size check, so a failed buffer
check leaves a mutated `pageSize_` behind. -/
def begin (s : FramState) (densityInKiloBits i2cAddress typebufferSize : Nat)
    (alloc : Option Nat) : ResultCode × FramState :=
  if s.initialized_ = true then
    if densityInKiloBits = s.density_ ∧ i2cAddress = s.i2cAddress_ ∧
        typebufferSize = s.typebufferSize_ then
      (ResultCode.Success, s)
    else
      (ResultCode.AllreadyInitializedError, s)
  else if isDensitySupported densityInKiloBits = false then
    (ResultCode.UnsupportedDensityError, s)
  else
    let s1 := { s with pageSize_ := densityToPageSize densityInKiloBits }
    if s1.pageSize_ < typebufferSize then
      (ResultCode.BufferAllocationFailedError, s1)
    else
      match alloc with
      | none => (ResultCode.BufferAllocationFailedError, s1)
      | some p =>
        (ResultCode.Success,
          { s1 with
            typebuffer_ := some p,
            typebufferSize_ := typebufferSize,
            i2cAddress_ := i2cAddress,
            density_ := densityInKiloBits,
            memorySize_ := densityToMemorySize densityInKiloBits,
            addressBytesCount_ := if s1.pageSize_ = 0x100 then 1 else 2,
            pageCount_ :=
              densityToMemorySize densityInKiloBits /
                densityToPageSize densityInKiloBits % 256,
            initialized_ := true,
            deviceIdChecked_ := false,
            deviceIdSupported_ := false,
            manufacturerId_ := 0,
            productId_ := 0 })

/-- `FramI2C::end`.  Returns the new state together with the list of pointers
passed to `free` during the call.  The source frees `typebuffer_` when it is
non-null and zeroes every field EXCEPT `typebuffer_`, which keeps its old
(now dangling) value. -/
def end_ (s : FramState) : FramState × List Nat :=
  ({ s with
      initialized_ := false,
      typebufferSize_ := 0,
      i2cAddress_ := 0,
      density_ := 0,
      memorySize_ := 0,
      pageSize_ := 0,
      pageCount_ := 0,
      addressBytesCount_ := 0,
      deviceIdChecked_ := false,
      deviceIdSupported_ := false,
      manufacturerId_ := 0,
      productId_ := 0 },
   match s.typebuffer_ with
   | some p => [p]
   | none => [])

/-- `I2CBufferLength` from FramI2C.h: the Wire library's fixed 32-byte
transaction buffer. -/
def I2CBufferLength : Nat := 32

/-- One recorded chunk transaction of the transfer engine: the page i2c
address it was sent to, the in-page FRAM address transmitted, the number of
data bytes, and the data payload (empty for read chunks). -/
structure ChunkTxn where
  busAddr : Nat
  framAddr : Nat
  len : Nat
  data : List Nat
  deriving DecidableEq, Repr

/-- Raw bus operations of the device-identification protocol. -/
inductive BusOp where
  | beginEnd (target : Nat) (payload : List Nat) (keepBus : Bool)
  | request (target : Nat) (count : Nat)
  deriving DecidableEq, Repr

/-- Oracle for the Wire transport: the answer of the k-th queueing phase,
the k-th `endTransmission`, the k-th `requestFrom`, and the payload bytes the
device-id protocol receives.  Bus-operation ordinals are threaded through the
driver functions as an extra `k` argument/result. -/
structure Bus where
  queueRes : Nat → Nat → Nat
  endRes : Nat → Nat
  reqRes : Nat → Nat → Nat
  idBytes : Nat → Nat

/-- A fault-free transport: every queueing phase queues everything it is
given, every `endTransmission` reports `TwiSuccess`, and every `requestFrom`
returns the requested byte count. -/
def FaultFree (bus : Bus) : Prop :=
  (∀ k n, bus.queueRes k n = n) ∧ (∀ k, bus.endRes k = 0) ∧
    (∀ k n, bus.reqRes k n = n)

/-- A concrete fault-free transport, used for concrete scenarios. -/
def busFF : Bus :=
  { queueRes := fun _ n => n, endRes := fun _ => 0, reqRes := fun _ n => n,
    idBytes := fun _ => 0 }

theorem busFF_faultFree : FaultFree busFF :=
  ⟨fun _ _ => rfl, fun _ => rfl, fun _ _ => rfl⟩

/-- All-zero device memory, used for concrete scenarios. -/
def mem0 : Nat → Nat → Nat := fun _ _ => 0

/-- Effect of a successful write chunk on device memory: the chunk's bytes
land at consecutive FRAM addresses starting at `framAddr` of the device at
`busAddr`. -/
def memWrite (mem : Nat → Nat → Nat) (busAddr framAddr : Nat)
    (bytes : List Nat) : Nat → Nat → Nat :=
  fun b a =>
    if b = busAddr ∧ framAddr ≤ a ∧ a < framAddr + bytes.length then
      bytes.getD (a - framAddr) 0
    else mem b a

/-- The while-loop of `FramI2C::writeBytes`.  Each iteration transmits the
chunk address bytes plus `min remaining usable` data bytes in one
transaction; on success the chunk lands in device memory, the uint16 FRAM
address advances (mod 2^16) and the data cursor advances.  `fuel` bounds the
iteration count; callers pass `byteCount`, which is exact when `usable > 0`. -/
def writeLoop (bus : Bus) (abc usable busAddr : Nat) :
    Nat → (Nat → Nat → Nat) → Nat → Nat → List Nat → Nat →
      ResultCode × List ChunkTxn × (Nat → Nat → Nat) × Nat
  | 0, mem, _, _, _, k => (ResultCode.Success, [], mem, k)
  | fuel + 1, mem, framAddr, remaining, d, k =>
    if remaining = 0 then (ResultCode.Success, [], mem, k)
    else
      let chunkSize := min remaining usable
      let bytesQueued := bus.queueRes k (abc + chunkSize)
      if bytesQueued ≠ abc + chunkSize then
        (ResultCode.I2CWriteError, [], mem, k)
      else
        let txn : ChunkTxn := ⟨busAddr, framAddr, chunkSize, d.take chunkSize⟩
        let twiresult := bus.endRes k
        if twiresult ≠ TwiSuccess then
          (twiCodeToResultCode twiresult, [txn], mem, k + 1)
        else
          let r := writeLoop bus abc usable busAddr fuel
            (memWrite mem busAddr framAddr (d.take chunkSize))
            ((framAddr + chunkSize) % 65536) (remaining - chunkSize)
            (d.drop chunkSize) (k + 1)
          (r.1, txn :: r.2.1, r.2.2.1, r.2.2.2)

/-- The while-loop of `FramI2C::fill`: identical to the write loop except
every data byte equals `value`. -/
def fillLoop (bus : Bus) (abc usable busAddr : Nat) (value : Nat) :
    Nat → (Nat → Nat → Nat) → Nat → Nat → Nat →
      ResultCode × List ChunkTxn × (Nat → Nat → Nat) × Nat
  | 0, mem, _, _, k => (ResultCode.Success, [], mem, k)
  | fuel + 1, mem, framAddr, remaining, k =>
    if remaining = 0 then (ResultCode.Success, [], mem, k)
    else
      let chunkSize := min remaining usable
      let bytesQueued := bus.queueRes k (abc + chunkSize)
      if bytesQueued ≠ abc + chunkSize then
        (ResultCode.I2CWriteError, [], mem, k)
      else
        let txn : ChunkTxn :=
          ⟨busAddr, framAddr, chunkSize, List.replicate chunkSize value⟩
        let twiresult := bus.endRes k
        if twiresult ≠ TwiSuccess then
          (twiCodeToResultCode twiresult, [txn], mem, k + 1)
        else
          let r := fillLoop bus abc usable busAddr value fuel
            (memWrite mem busAddr framAddr (List.replicate chunkSize value))
            ((framAddr + chunkSize) % 65536) (remaining - chunkSize) (k + 1)
          (r.1, txn :: r.2.1, r.2.2.1, r.2.2.2)

/-- The while-loop of `FramI2C::readBytes`.  Each iteration sets the FRAM
address in a write transaction of `abc` address bytes, then requests
`min remaining 32` bytes; received bytes are appended to the output. -/
def readLoop (bus : Bus) (abc busAddr : Nat) :
    Nat → (Nat → Nat → Nat) → Nat → Nat → Nat →
      ResultCode × List ChunkTxn × List Nat × Nat
  | 0, _, _, _, k => (ResultCode.Success, [], [], k)
  | fuel + 1, mem, framAddr, remaining, k =>
    if remaining = 0 then (ResultCode.Success, [], [], k)
    else
      let chunkSize := min remaining I2CBufferLength
      let bytesQueued := bus.queueRes k abc
      if bytesQueued ≠ abc then (ResultCode.I2CWriteError, [], [], k)
      else
        let twiresult := bus.endRes k
        if twiresult ≠ TwiSuccess then
          (twiCodeToResultCode twiresult, [], [], k + 1)
        else
          let txn : ChunkTxn := ⟨busAddr, framAddr, chunkSize, []⟩
          let bytesRead := bus.reqRes (k + 1) chunkSize
          if bytesRead ≠ chunkSize then
            (ResultCode.I2CReadError, [txn], [], k + 2)
          else
            let chunkBytes :=
              (List.range chunkSize).map fun i => mem busAddr (framAddr + i)
            let r := readLoop bus abc busAddr fuel mem
              ((framAddr + chunkSize) % 65536) (remaining - chunkSize) (k + 2)
            (r.1, txn :: r.2.1, chunkBytes ++ r.2.2.1, r.2.2.2)

/-- `FramI2C::readBytes(page, address, byteCount, data)`.  `dataPtr` models
the caller's buffer pointer (`none` = nullptr); the bytes read are returned
as a list.  Validation happens in source order: initialized, non-null
pointer, page bound, page range; only then does the chunk loop touch the
bus. -/
def readBytes (s : FramState) (bus : Bus) (mem : Nat → Nat → Nat)
    (page address byteCount : Nat) (dataPtr : Option Nat) (k : Nat) :
    ResultCode × List ChunkTxn × List Nat × Nat :=
  if s.initialized_ = false then (ResultCode.NotInitializedError, [], [], k)
  else if dataPtr = none then (ResultCode.NullPtrError, [], [], k)
  else if s.pageCount_ ≤ page then (ResultCode.InvalidPageError, [], [], k)
  else if s.pageSize_ ≤ address ∨ s.pageSize_ < address + byteCount then
    (ResultCode.PageSizeRangeError, [], [], k)
  else
    readLoop bus s.addressBytesCount_ ((s.i2cAddress_ + page) % 256)
      byteCount mem address byteCount k

/-- `FramI2C::writeBytes(page, address, byteCount, data)`.  `data` models the
caller's buffer (`none` = nullptr, `some d` = the pointed-to bytes). -/
def writeBytes (s : FramState) (bus : Bus) (mem : Nat → Nat → Nat)
    (page address byteCount : Nat) (data : Option (List Nat)) (k : Nat) :
    ResultCode × List ChunkTxn × (Nat → Nat → Nat) × Nat :=
  if s.initialized_ = false then
    (ResultCode.NotInitializedError, [], mem, k)
  else
    match data with
    | none => (ResultCode.NullPtrError, [], mem, k)
    | some d =>
      if s.pageCount_ ≤ page then (ResultCode.InvalidPageError, [], mem, k)
      else if s.pageSize_ ≤ address ∨ s.pageSize_ < address + byteCount then
        (ResultCode.PageSizeRangeError, [], mem, k)
      else
        writeLoop bus s.addressBytesCount_
          (I2CBufferLength - s.addressBytesCount_)
          ((s.i2cAddress_ + page) % 256) byteCount mem address byteCount d k

/-- `FramI2C::fill(page, address, byteCount, value)`.  Same validation as
`writeBytes` except there is no data pointer to check. -/
def fill (s : FramState) (bus : Bus) (mem : Nat → Nat → Nat)
    (page address byteCount value : Nat) (k : Nat) :
    ResultCode × List ChunkTxn × (Nat → Nat → Nat) × Nat :=
  if s.initialized_ = false then
    (ResultCode.NotInitializedError, [], mem, k)
  else if s.pageCount_ ≤ page then (ResultCode.InvalidPageError, [], mem, k)
  else if s.pageSize_ ≤ address ∨ s.pageSize_ < address + byteCount then
    (ResultCode.PageSizeRangeError, [], mem, k)
  else
    fillLoop bus s.addressBytesCount_
      (I2CBufferLength - s.addressBytesCount_)
      ((s.i2cAddress_ + page) % 256) value byteCount mem address byteCount k

/-- `FramI2C::getDeviceId`: the reserved-address identification query.
Opens a transaction at the fixed reserved address 0x7C, transmits the single
framing byte `i2cAddress_ << 1` (truncated to uint8 by `Wire.write`), closes
the write phase keeping bus ownership (`endTransmission(false)`), then
requests exactly 3 id bytes.  On success it sets `deviceIdSupported_` and the
two id fields; note the source never sets `deviceIdChecked_`. -/
def getDeviceId (s : FramState) (bus : Bus) (k : Nat) :
    Bool × FramState × List BusOp × Nat :=
  let framing := s.i2cAddress_ * 2 % 256
  let bytesQueued := bus.queueRes k 1
  if bytesQueued ≠ 1 then (false, s, [], k)
  else
    let op1 := BusOp.beginEnd 0x7C [framing] true
    let twiresult := bus.endRes k
    if twiresult ≠ TwiSuccess then (false, s, [op1], k + 1)
    else
      let op2 := BusOp.request 0x7C 3
      let bytesRead := bus.reqRes (k + 1) 3
      if bytesRead ≠ 3 then (false, s, [op1, op2], k + 2)
      else
        let id0 := bus.idBytes 0 % 256
        let id1 := bus.idBytes 1 % 256
        let id2 := bus.idBytes 2 % 256
        (true,
          { s with
            deviceIdSupported_ := true,
            manufacturerId_ := id0 * 16 + id1 / 16,
            productId_ := id1 % 16 * 256 + id2 },
          [op1, op2], k + 2)

/-- `FramI2C::isDeviceIdSupported`: queries the bus when
`deviceIdChecked_` is false, then returns `deviceIdSupported_`. -/
def isDeviceIdSupported (s : FramState) (bus : Bus) (k : Nat) :
    Bool × FramState × List BusOp × Nat :=
  if s.deviceIdChecked_ = false then
    let r := getDeviceId s bus k
    (r.2.1.deviceIdSupported_, r.2.1, r.2.2.1, r.2.2.2)
  else (s.deviceIdSupported_, s, [], k)

/-- `FramI2C::manufacturerId`: queries the bus when `deviceIdChecked_` is
false, then returns `manufacturerId_`. -/
def manufacturerId (s : FramState) (bus : Bus) (k : Nat) :
    Nat × FramState × List BusOp × Nat :=
  if s.deviceIdChecked_ = false then
    let r := getDeviceId s bus k
    (r.2.1.manufacturerId_, r.2.1, r.2.2.1, r.2.2.2)
  else (s.manufacturerId_, s, [], k)

/-- `FramI2C::productId`: queries the bus when `deviceIdChecked_` is false,
then returns `productId_`. -/
def productId (s : FramState) (bus : Bus) (k : Nat) :
    Nat × FramState × List BusOp × Nat :=
  if s.deviceIdChecked_ = false then
    let r := getDeviceId s bus k
    (r.2.1.productId_, r.2.1, r.2.2.1, r.2.2.2)
  else (s.productId_, s, [], k)

/-- The template method `FramI2C::read<T>`: `sizeT` stands for `sizeof(T)`
and `t` for the bytes of the caller's output value.  The scratch-capacity
check precedes everything; `readBytes` targets the scratch buffer
`typebuffer_`; the bytes are copied into `t` only on `Success`. -/
def read_T (s : FramState) (bus : Bus) (mem : Nat → Nat → Nat)
    (page address sizeT : Nat) (t : List Nat) (k : Nat) :
    ResultCode × List ChunkTxn × List Nat × Nat :=
  if s.typebufferSize_ < sizeT then (ResultCode.BufferOverflowError, [], t, k)
  else
    let r := readBytes s bus mem page address sizeT s.typebuffer_ k
    if r.1 = ResultCode.Success then (r.1, r.2.1, r.2.2.1, r.2.2.2)
    else (r.1, r.2.1, t, r.2.2.2)

/-- The template method `FramI2C::write<T>`: the scratch-capacity check
precedes everything; then `t`'s bytes are staged in the scratch buffer and
written through `writeBytes`. -/
def write_T (s : FramState) (bus : Bus) (mem : Nat → Nat → Nat)
    (page address sizeT : Nat) (t : List Nat) (k : Nat) :
    ResultCode × List ChunkTxn × (Nat → Nat → Nat) × Nat :=
  if s.typebufferSize_ < sizeT then
    (ResultCode.BufferOverflowError, [], mem, k)
  else
    writeBytes s bus mem page address sizeT
      (s.typebuffer_.map fun _ => t.take sizeT) k

/-- Facts `begin` establishes about every successfully initialized state:
the device is initialized, the address-byte width is 1 or 2, and the page
size fits the uint16 FRAM address space. -/
def WellFormed (s : FramState) : Prop :=
  s.initialized_ = true ∧
    (s.addressBytesCount_ = 1 ∨ s.addressBytesCount_ = 2) ∧
    s.pageSize_ ≤ 65536

instance (s : FramState) : Decidable (WellFormed s) := by
  unfold WellFormed; infer_instance

/-- `chainChunks maxLen addr len pairs` holds when the (address, length)
pairs partition the range `[addr, addr + len)` in order: each chunk starts
exactly where the previous one ended (no overlap, no gap), is nonempty, and
is at most `maxLen` bytes. -/
def chainChunks (maxLen : Nat) : Nat → Nat → List (Nat × Nat) → Bool
  | _, len, [] => decide (len = 0)
  | addr, len, (a, c) :: rest =>
    decide (a = addr) && decide (0 < c) && decide (c ≤ maxLen) &&
      decide (c ≤ len) && chainChunks maxLen (addr + c) (len - c) rest

/-- The state of a 64-kilobit device after a successful `begin`:
memorySize 8192, a single page of size 8192, two address bytes. -/
def s64 : FramState := (begin initState 64 0x50 10 (some 1)).2

/-! ### List helpers -/

theorem getD_take (d : List Nat) (c i : Nat) (h : i < c) :
    (d.take c).getD i 0 = d.getD i 0 := by
  simp [List.getD_eq_getElem?_getD, List.getElem?_take_of_lt h]

theorem getD_drop (d : List Nat) (c i : Nat) :
    (d.drop c).getD i 0 = d.getD (c + i) 0 := by
  simp [List.getD_eq_getElem?_getD, List.getElem?_drop]

theorem range_map_getD (d : List Nat) :
    (List.range d.length).map (fun i => d.getD i 0) = d := by
  induction d with
  | nil => simp
  | cons x xs ih =>
    rw [List.length_cons, List.range_succ_eq_map, List.map_cons, List.map_map]
    simp only [Function.comp_def, List.getD_cons_succ, List.getD_cons_zero]
    rw [ih]

/-! ### Fault-free behavior of the write loop -/

theorem writeLoop_step (bus : Bus) (hq : ∀ k n, bus.queueRes k n = n)
    (he : ∀ k, bus.endRes k = 0) (abc usable busAddr fuel : Nat)
    (mem : Nat → Nat → Nat) (framAddr remaining : Nat) (d : List Nat)
    (k : Nat) (h0 : remaining ≠ 0) :
    writeLoop bus abc usable busAddr (fuel + 1) mem framAddr remaining d k =
      ((writeLoop bus abc usable busAddr fuel
          (memWrite mem busAddr framAddr (d.take (min remaining usable)))
          ((framAddr + min remaining usable) % 65536)
          (remaining - min remaining usable)
          (d.drop (min remaining usable)) (k + 1)).1,
       ⟨busAddr, framAddr, min remaining usable, d.take (min remaining usable)⟩ ::
         (writeLoop bus abc usable busAddr fuel
            (memWrite mem busAddr framAddr (d.take (min remaining usable)))
            ((framAddr + min remaining usable) % 65536)
            (remaining - min remaining usable)
            (d.drop (min remaining usable)) (k + 1)).2.1,
       (writeLoop bus abc usable busAddr fuel
          (memWrite mem busAddr framAddr (d.take (min remaining usable)))
          ((framAddr + min remaining usable) % 65536)
          (remaining - min remaining usable)
          (d.drop (min remaining usable)) (k + 1)).2.2) := by
  simp [writeLoop, h0, hq, he, TwiSuccess]

/-- The write loop does nothing when the remaining count is 0. -/
theorem writeLoop_zero (bus : Bus) (abc usable busAddr fuel : Nat)
    (mem : Nat → Nat → Nat) (framAddr : Nat) (d : List Nat) (k : Nat) :
    writeLoop bus abc usable busAddr fuel mem framAddr 0 d k =
      (ResultCode.Success, [], mem, k) := by
  cases fuel <;> rfl

/-- Fault-free write loop: it succeeds, issues exactly
`ceil(remaining / usable)` chunk transactions that partition the requested
range in order, and deposits the data bytes at consecutive device
addresses. -/
theorem writeLoop_ff (bus : Bus) (hff : FaultFree bus)
    (abc usable busAddr : Nat) (hu : 0 < usable) :
    ∀ (fuel : Nat) (mem : Nat → Nat → Nat) (framAddr remaining : Nat)
      (d : List Nat) (k : Nat), remaining ≤ fuel →
      framAddr + remaining ≤ 65536 →
      (writeLoop bus abc usable busAddr fuel mem framAddr remaining d k).1 =
          ResultCode.Success ∧
        (writeLoop bus abc usable busAddr fuel mem framAddr
            remaining d k).2.1.length = (remaining + usable - 1) / usable ∧
        chainChunks usable framAddr remaining
          ((writeLoop bus abc usable busAddr fuel mem framAddr
              remaining d k).2.1.map fun t => (t.framAddr, t.len)) = true ∧
        (remaining ≤ d.length → ∀ b a,
          (writeLoop bus abc usable busAddr fuel mem framAddr
              remaining d k).2.2.1 b a =
            if b = busAddr ∧ framAddr ≤ a ∧ a < framAddr + remaining then
              d.getD (a - framAddr) 0
            else mem b a) := by
  obtain ⟨hq, he, -⟩ := hff
  intro fuel
  induction fuel with
  | zero =>
    intro mem framAddr remaining d k hle hbound
    have h0 : remaining = 0 := Nat.le_zero.mp hle
    subst h0
    rw [writeLoop_zero]
    refine ⟨rfl, ?_, rfl, ?_⟩
    · simp [Nat.div_eq_of_lt (by omega : usable - 1 < usable)]
    · intro _ b a
      split
      · omega
      · rfl
  | succ fuel ih =>
    intro mem framAddr remaining d k hle hbound
    by_cases h0 : remaining = 0
    · subst h0
      rw [writeLoop_zero]
      refine ⟨rfl, ?_, rfl, ?_⟩
      · simp [Nat.div_eq_of_lt (by omega : usable - 1 < usable)]
      · intro _ b a
        split
        · omega
        · rfl
    · rw [writeLoop_step bus hq he abc usable busAddr fuel mem framAddr
        remaining d k h0]
      set c := min remaining usable with hc
      have hc1 : 1 ≤ c := by omega
      have hcr : c ≤ remaining := by omega
      have hcu : c ≤ usable := by omega
      have harith : (remaining - c + usable - 1) / usable + 1 =
          (remaining + usable - 1) / usable := by
        have h1 : remaining + usable - 1 = remaining - 1 + usable := by omega
        rw [h1, Nat.add_div_right _ hu]
        by_cases hru : remaining ≤ usable
        · have h2 : remaining - c + usable - 1 = usable - 1 := by omega
          rw [h2, Nat.div_eq_of_lt (by omega : usable - 1 < usable),
            Nat.div_eq_of_lt (by omega : remaining - 1 < usable)]
        · have h2 : remaining - c + usable - 1 = remaining - 1 := by omega
          rw [h2]
      by_cases hrem : remaining - c = 0
      · -- the recursive call is a no-op
        rw [hrem, writeLoop_zero]
        refine ⟨rfl, ?_, ?_, ?_⟩
        · show (1 : Nat) = (remaining + usable - 1) / usable
          rw [← harith, hrem]
          rw [Nat.div_eq_of_lt (by omega : 0 + usable - 1 < usable)]
        · show chainChunks usable framAddr remaining [(framAddr, c)] = true
          simp only [chainChunks, Bool.and_eq_true, decide_eq_true_eq,
            true_and]
          omega
        · intro hd b a
          show memWrite mem busAddr framAddr (d.take c) b a = _
          have hcl : (d.take c).length = c := by
            rw [List.length_take]; omega
          simp only [memWrite, hcl]
          split_ifs
          · rw [getD_take d c (a - framAddr) (by omega)]
          · omega
          · omega
          · rfl
      · -- the recursive call continues at framAddr + c
        have hmod : (framAddr + c) % 65536 = framAddr + c :=
          Nat.mod_eq_of_lt (by omega)
        rw [hmod]
        obtain ⟨ih1, ih2, ih3, ih4⟩ := ih
          (memWrite mem busAddr framAddr (d.take c)) (framAddr + c)
          (remaining - c) (d.drop c) (k + 1) (by omega) (by omega)
        refine ⟨ih1, ?_, ?_, ?_⟩
        · show (ChunkTxn.mk busAddr framAddr c (d.take c) ::
            (writeLoop bus abc usable busAddr fuel
              (memWrite mem busAddr framAddr (d.take c)) (framAddr + c)
              (remaining - c) (d.drop c) (k + 1)).2.1).length = _
          rw [List.length_cons, ih2, harith]
        · show chainChunks usable framAddr remaining ((framAddr, c) ::
            ((writeLoop bus abc usable busAddr fuel
              (memWrite mem busAddr framAddr (d.take c)) (framAddr + c)
              (remaining - c) (d.drop c) (k + 1)).2.1.map
                fun t => (t.framAddr, t.len))) = true
          simp only [chainChunks, ih3, Bool.and_true, Bool.and_eq_true,
            decide_eq_true_eq, true_and]
          omega
        · intro hd b a
          have ih4' := ih4 (by rw [List.length_drop]; omega) b a
          show (writeLoop bus abc usable busAddr fuel
            (memWrite mem busAddr framAddr (d.take c)) (framAddr + c)
            (remaining - c) (d.drop c) (k + 1)).2.2.1 b a = _
          rw [ih4']
          have hcl : (d.take c).length = c := by
            rw [List.length_take]; omega
          simp only [memWrite, hcl]
          split_ifs
          · rw [getD_drop]; congr 1; omega
          · omega
          · rw [getD_take d c (a - framAddr) (by omega)]
          · omega
          · omega
          · rfl

/-! ### Fault-free behavior of the fill loop -/

theorem fillLoop_step (bus : Bus) (hq : ∀ k n, bus.queueRes k n = n)
    (he : ∀ k, bus.endRes k = 0) (abc usable busAddr value fuel : Nat)
    (mem : Nat → Nat → Nat) (framAddr remaining : Nat) (k : Nat)
    (h0 : remaining ≠ 0) :
    fillLoop bus abc usable busAddr value (fuel + 1) mem framAddr remaining
        k =
      ((fillLoop bus abc usable busAddr value fuel
          (memWrite mem busAddr framAddr
            (List.replicate (min remaining usable) value))
          ((framAddr + min remaining usable) % 65536)
          (remaining - min remaining usable) (k + 1)).1,
       ⟨busAddr, framAddr, min remaining usable,
           List.replicate (min remaining usable) value⟩ ::
         (fillLoop bus abc usable busAddr value fuel
            (memWrite mem busAddr framAddr
              (List.replicate (min remaining usable) value))
            ((framAddr + min remaining usable) % 65536)
            (remaining - min remaining usable) (k + 1)).2.1,
       (fillLoop bus abc usable busAddr value fuel
          (memWrite mem busAddr framAddr
            (List.replicate (min remaining usable) value))
          ((framAddr + min remaining usable) % 65536)
          (remaining - min remaining usable) (k + 1)).2.2) := by
  simp [fillLoop, h0, hq, he, TwiSuccess]

/-- The fill loop does nothing when the remaining count is 0. -/
theorem fillLoop_zero (bus : Bus) (abc usable busAddr value fuel : Nat)
    (mem : Nat → Nat → Nat) (framAddr : Nat) (k : Nat) :
    fillLoop bus abc usable busAddr value fuel mem framAddr 0 k =
      (ResultCode.Success, [], mem, k) := by
  cases fuel <;> rfl

/-- Fault-free fill loop: it succeeds and issues exactly
`ceil(remaining / usable)` chunk transactions that partition the requested
range in order. -/
theorem fillLoop_ff (bus : Bus) (hff : FaultFree bus)
    (abc usable busAddr value : Nat) (hu : 0 < usable) :
    ∀ (fuel : Nat) (mem : Nat → Nat → Nat) (framAddr remaining : Nat)
      (k : Nat), remaining ≤ fuel → framAddr + remaining ≤ 65536 →
      (fillLoop bus abc usable busAddr value fuel mem framAddr remaining
          k).1 = ResultCode.Success ∧
        (fillLoop bus abc usable busAddr value fuel mem framAddr remaining
            k).2.1.length = (remaining + usable - 1) / usable ∧
        chainChunks usable framAddr remaining
          ((fillLoop bus abc usable busAddr value fuel mem framAddr
              remaining k).2.1.map fun t => (t.framAddr, t.len)) = true := by
  obtain ⟨hq, he, -⟩ := hff
  intro fuel
  induction fuel with
  | zero =>
    intro mem framAddr remaining k hle hbound
    have h0 : remaining = 0 := Nat.le_zero.mp hle
    subst h0
    rw [fillLoop_zero]
    exact ⟨rfl, by simp [Nat.div_eq_of_lt (by omega : usable - 1 < usable)],
      rfl⟩
  | succ fuel ih =>
    intro mem framAddr remaining k hle hbound
    by_cases h0 : remaining = 0
    · subst h0
      rw [fillLoop_zero]
      exact ⟨rfl, by simp [Nat.div_eq_of_lt (by omega : usable - 1 < usable)],
        rfl⟩
    · rw [fillLoop_step bus hq he abc usable busAddr value fuel mem framAddr
        remaining k h0]
      set c := min remaining usable with hc
      have hc1 : 1 ≤ c := by omega
      have harith : (remaining - c + usable - 1) / usable + 1 =
          (remaining + usable - 1) / usable := by
        have h1 : remaining + usable - 1 = remaining - 1 + usable := by omega
        rw [h1, Nat.add_div_right _ hu]
        by_cases hru : remaining ≤ usable
        · have h2 : remaining - c + usable - 1 = usable - 1 := by omega
          rw [h2, Nat.div_eq_of_lt (by omega : usable - 1 < usable),
            Nat.div_eq_of_lt (by omega : remaining - 1 < usable)]
        · have h2 : remaining - c + usable - 1 = remaining - 1 := by omega
          rw [h2]
      by_cases hrem : remaining - c = 0
      · rw [hrem, fillLoop_zero]
        refine ⟨rfl, ?_, ?_⟩
        · show (1 : Nat) = (remaining + usable - 1) / usable
          rw [← harith, hrem]
          rw [Nat.div_eq_of_lt (by omega : 0 + usable - 1 < usable)]
        · show chainChunks usable framAddr remaining [(framAddr, c)] = true
          simp only [chainChunks, Bool.and_eq_true, decide_eq_true_eq,
            true_and]
          omega
      · have hmod : (framAddr + c) % 65536 = framAddr + c :=
          Nat.mod_eq_of_lt (by omega)
        rw [hmod]
        obtain ⟨ih1, ih2, ih3⟩ := ih
          (memWrite mem busAddr framAddr (List.replicate c value))
          (framAddr + c) (remaining - c) (k + 1) (by omega) (by omega)
        refine ⟨ih1, ?_, ?_⟩
        · show (ChunkTxn.mk busAddr framAddr c (List.replicate c value) ::
            (fillLoop bus abc usable busAddr value fuel
              (memWrite mem busAddr framAddr (List.replicate c value))
              (framAddr + c) (remaining - c) (k + 1)).2.1).length = _
          rw [List.length_cons, ih2, harith]
        · show chainChunks usable framAddr remaining ((framAddr, c) ::
            ((fillLoop bus abc usable busAddr value fuel
              (memWrite mem busAddr framAddr (List.replicate c value))
              (framAddr + c) (remaining - c) (k + 1)).2.1.map
                fun t => (t.framAddr, t.len))) = true
          simp only [chainChunks, ih3, Bool.and_true, Bool.and_eq_true,
            decide_eq_true_eq, true_and]
          omega

/-! ### Fault-free behavior of the read loop -/

theorem readLoop_step (bus : Bus) (hq : ∀ k n, bus.queueRes k n = n)
    (he : ∀ k, bus.endRes k = 0) (hr : ∀ k n, bus.reqRes k n = n)
    (abc busAddr fuel : Nat) (mem : Nat → Nat → Nat)
    (framAddr remaining : Nat) (k : Nat) (h0 : remaining ≠ 0) :
    readLoop bus abc busAddr (fuel + 1) mem framAddr remaining k =
      ((readLoop bus abc busAddr fuel mem
          ((framAddr + min remaining 32) % 65536)
          (remaining - min remaining 32) (k + 2)).1,
       ⟨busAddr, framAddr, min remaining 32, []⟩ ::
         (readLoop bus abc busAddr fuel mem
            ((framAddr + min remaining 32) % 65536)
            (remaining - min remaining 32) (k + 2)).2.1,
       (List.range (min remaining 32)).map
           (fun i => mem busAddr (framAddr + i)) ++
         (readLoop bus abc busAddr fuel mem
            ((framAddr + min remaining 32) % 65536)
            (remaining - min remaining 32) (k + 2)).2.2.1,
       (readLoop bus abc busAddr fuel mem
          ((framAddr + min remaining 32) % 65536)
          (remaining - min remaining 32) (k + 2)).2.2.2) := by
  simp [readLoop, h0, hq, he, hr, TwiSuccess, I2CBufferLength]

/-- The read loop does nothing when the remaining count is 0. -/
theorem readLoop_zero (bus : Bus) (abc busAddr fuel : Nat)
    (mem : Nat → Nat → Nat) (framAddr : Nat) (k : Nat) :
    readLoop bus abc busAddr fuel mem framAddr 0 k =
      (ResultCode.Success, [], [], k) := by
  cases fuel <;> rfl

/-- Fault-free read loop: it succeeds, issues exactly
`ceil(remaining / 32)` chunk transactions that partition the requested range
in order, and returns exactly the device bytes of that range. -/
theorem readLoop_ff (bus : Bus) (hff : FaultFree bus) (abc busAddr : Nat) :
    ∀ (fuel : Nat) (mem : Nat → Nat → Nat) (framAddr remaining : Nat)
      (k : Nat), remaining ≤ fuel → framAddr + remaining ≤ 65536 →
      (readLoop bus abc busAddr fuel mem framAddr remaining k).1 =
          ResultCode.Success ∧
        (readLoop bus abc busAddr fuel mem framAddr
            remaining k).2.1.length = (remaining + 32 - 1) / 32 ∧
        chainChunks 32 framAddr remaining
          ((readLoop bus abc busAddr fuel mem framAddr
              remaining k).2.1.map fun t => (t.framAddr, t.len)) = true ∧
        (readLoop bus abc busAddr fuel mem framAddr remaining k).2.2.1 =
          (List.range remaining).map (fun i => mem busAddr (framAddr + i)) := by
  obtain ⟨hq, he, hr⟩ := hff
  intro fuel
  induction fuel with
  | zero =>
    intro mem framAddr remaining k hle hbound
    have h0 : remaining = 0 := Nat.le_zero.mp hle
    subst h0
    rw [readLoop_zero]
    exact ⟨rfl, by simp, rfl, by simp⟩
  | succ fuel ih =>
    intro mem framAddr remaining k hle hbound
    by_cases h0 : remaining = 0
    · subst h0
      rw [readLoop_zero]
      exact ⟨rfl, by simp, rfl, by simp⟩
    · rw [readLoop_step bus hq he hr abc busAddr fuel mem framAddr remaining
        k h0]
      set c := min remaining 32 with hc
      have hc1 : 1 ≤ c := by omega
      have harith : (remaining - c + 32 - 1) / 32 + 1 =
          (remaining + 32 - 1) / 32 := by
        have h1 : remaining + 32 - 1 = remaining - 1 + 32 := by omega
        rw [h1, Nat.add_div_right _ (by omega : (0 : Nat) < 32)]
        by_cases hru : remaining ≤ 32
        · have h2 : remaining - c + 32 - 1 = 32 - 1 := by omega
          rw [h2, Nat.div_eq_of_lt (by omega : 32 - 1 < 32),
            Nat.div_eq_of_lt (by omega : remaining - 1 < 32)]
        · have h2 : remaining - c + 32 - 1 = remaining - 1 := by omega
          rw [h2]
      by_cases hrem : remaining - c = 0
      · rw [hrem, readLoop_zero]
        refine ⟨rfl, ?_, ?_, ?_⟩
        · show (1 : Nat) = (remaining + 32 - 1) / 32
          rw [← harith, hrem]
        · show chainChunks 32 framAddr remaining [(framAddr, c)] = true
          simp only [chainChunks, Bool.and_eq_true, decide_eq_true_eq,
            true_and]
          omega
        · show (List.range c).map (fun i => mem busAddr (framAddr + i)) ++
            [] = _
          rw [List.append_nil]
          have hceq : c = remaining := by omega
          rw [hceq]
      · have hmod : (framAddr + c) % 65536 = framAddr + c :=
          Nat.mod_eq_of_lt (by omega)
        rw [hmod]
        obtain ⟨ih1, ih2, ih3, ih4⟩ := ih mem (framAddr + c) (remaining - c)
          (k + 2) (by omega) (by omega)
        refine ⟨ih1, ?_, ?_, ?_⟩
        · show (ChunkTxn.mk busAddr framAddr c [] ::
            (readLoop bus abc busAddr fuel mem (framAddr + c)
              (remaining - c) (k + 2)).2.1).length = _
          rw [List.length_cons, ih2, harith]
        · show chainChunks 32 framAddr remaining ((framAddr, c) ::
            ((readLoop bus abc busAddr fuel mem (framAddr + c)
              (remaining - c) (k + 2)).2.1.map
                fun t => (t.framAddr, t.len))) = true
          simp only [chainChunks, ih3, Bool.and_true, Bool.and_eq_true,
            decide_eq_true_eq, true_and]
          omega
        · show (List.range c).map (fun i => mem busAddr (framAddr + i)) ++
            (readLoop bus abc busAddr fuel mem (framAddr + c)
              (remaining - c) (k + 2)).2.2.1 = _
          rw [ih4]
          conv_rhs => rw [show remaining = c + (remaining - c) by omega,
            List.range_add, List.map_append, List.map_map]
          congr 1
          refine List.map_congr_left fun i _ => ?_
          simp [Function.comp_def, Nat.add_assoc]

/-! ### Unfolding the validated entry points -/

theorem readBytes_valid (s : FramState) (bus : Bus) (mem : Nat → Nat → Nat)
    (page address byteCount ptr k : Nat) (hinit : s.initialized_ = true)
    (hp : ¬ s.pageCount_ ≤ page) (ha : ¬ s.pageSize_ ≤ address)
    (hal : ¬ s.pageSize_ < address + byteCount) :
    readBytes s bus mem page address byteCount (some ptr) k =
      readLoop bus s.addressBytesCount_ ((s.i2cAddress_ + page) % 256)
        byteCount mem address byteCount k := by
  simp [readBytes, hinit, hp, ha, hal]

theorem writeBytes_valid (s : FramState) (bus : Bus) (mem : Nat → Nat → Nat)
    (page address byteCount : Nat) (d : List Nat) (k : Nat)
    (hinit : s.initialized_ = true) (hp : ¬ s.pageCount_ ≤ page)
    (ha : ¬ s.pageSize_ ≤ address)
    (hal : ¬ s.pageSize_ < address + byteCount) :
    writeBytes s bus mem page address byteCount (some d) k =
      writeLoop bus s.addressBytesCount_
        (I2CBufferLength - s.addressBytesCount_)
        ((s.i2cAddress_ + page) % 256) byteCount mem address byteCount d k := by
  simp [writeBytes, hinit, hp, ha, hal]

theorem fill_valid (s : FramState) (bus : Bus) (mem : Nat → Nat → Nat)
    (page address byteCount value k : Nat) (hinit : s.initialized_ = true)
    (hp : ¬ s.pageCount_ ≤ page) (ha : ¬ s.pageSize_ ≤ address)
    (hal : ¬ s.pageSize_ < address + byteCount) :
    fill s bus mem page address byteCount value k =
      fillLoop bus s.addressBytesCount_
        (I2CBufferLength - s.addressBytesCount_)
        ((s.i2cAddress_ + page) % 256) value byteCount mem address
        byteCount k := by
  simp [fill, hinit, hp, ha, hal]

/-- Shape of the state a successful `begin` from an uninitialized state
produces. -/
theorem begin_success_state (s : FramState) (hs : s.initialized_ = false)
    (dk a t p : Nat) (hdk : isDensitySupported dk = true)
    (ht : t ≤ densityToPageSize dk) :
    begin s dk a t (some p) =
      (ResultCode.Success,
       { density_ := dk, i2cAddress_ := a,
         memorySize_ := densityToMemorySize dk,
         pageSize_ := densityToPageSize dk,
         pageCount_ := densityToMemorySize dk / densityToPageSize dk % 256,
         addressBytesCount_ := if densityToPageSize dk = 0x100 then 1 else 2,
         typebufferSize_ := t, typebuffer_ := some p,
         initialized_ := true, deviceIdChecked_ := false,
         deviceIdSupported_ := false, manufacturerId_ := 0,
         productId_ := 0 }) := by
  simp [begin, hs, hdk, Nat.not_lt.mpr ht]

/-! ### Claim theorems -/

/-- C3: the bus-result mapping sends TwiSuccess to Success, TwiAddressNack,
TwiDataNack and TwiLineBusy to their driver errors, and out-of-set codes
(5, 255) to the catch-all; but, contrary to the claim and to the intent
expressed by the enum aliasing `I2CBufferOverflowError = TwiBufferOverflow`,
the switch omits the `TwiBufferOverflow` case, so code 1 falls through to
`I2CUnknownTwiResultCode` instead of `I2CBufferOverflowError`. -/
theorem twi_mapping_bufferOverflow_missing :
    twiCodeToResultCode TwiSuccess = ResultCode.Success ∧
    twiCodeToResultCode TwiAddressNack = ResultCode.I2CAddressNackError ∧
    twiCodeToResultCode TwiDataNack = ResultCode.I2CDataNackError ∧
    twiCodeToResultCode TwiLineBusy = ResultCode.I2CLineBusyError ∧
    twiCodeToResultCode 5 = ResultCode.I2CUnknownTwiResultCode ∧
    twiCodeToResultCode 255 = ResultCode.I2CUnknownTwiResultCode ∧
    twiCodeToResultCode TwiBufferOverflow =
      ResultCode.I2CUnknownTwiResultCode ∧
    twiCodeToResultCode TwiBufferOverflow ≠
      ResultCode.I2CBufferOverflowError := by
  decide

/-- C4: the identity result is never actually cached.  `getDeviceId` is the
only place that could set `deviceIdChecked_`, but it never does: after a
fully successful first accessor call on a fresh state over a fault-free
transport, `deviceIdChecked_` is still false, and a second accessor call
issues the complete identification bus query again instead of returning the
cached value without bus traffic. -/
theorem deviceId_cache_never_set :
    ((isDeviceIdSupported initState busFF 0).2.1).deviceIdChecked_ = false ∧
    ((isDeviceIdSupported initState busFF 0).2.1).deviceIdSupported_ =
      true ∧
    (isDeviceIdSupported initState busFF 0).2.2.1 =
      [BusOp.beginEnd 0x7C [0] true, BusOp.request 0x7C 3] ∧
    (isDeviceIdSupported ((isDeviceIdSupported initState busFF 0).2.1) busFF
        (isDeviceIdSupported initState busFF 0).2.2.2).2.2.1 =
      [BusOp.beginEnd 0x7C [0] true, BusOp.request 0x7C 3] := by
  decide

/-- C6: calling `begin` while already initialized returns Success and
leaves the state untouched when density, i2c address and buffer size all
equal the stored configuration, and returns AllreadyInitializedError
(also leaving the state untouched) when any of the three differs. -/
theorem begin_reinit (s : FramState) (dk a t : Nat) (alloc : Option Nat)
    (h : s.initialized_ = true) :
    ((dk = s.density_ ∧ a = s.i2cAddress_ ∧ t = s.typebufferSize_) →
      begin s dk a t alloc = (ResultCode.Success, s)) ∧
    (¬(dk = s.density_ ∧ a = s.i2cAddress_ ∧ t = s.typebufferSize_) →
      begin s dk a t alloc = (ResultCode.AllreadyInitializedError, s)) := by
  constructor
  · intro hm
    simp [begin, h, hm]
  · intro hm
    simp [begin, h, hm]

theorem begin_reinit_witness :
    begin s64 64 0x50 10 (some 1) = (ResultCode.Success, s64) ∧
    begin s64 16 0x50 10 (some 1) =
      (ResultCode.AllreadyInitializedError, s64) :=
  ⟨(begin_reinit s64 64 0x50 10 (some 1) (by decide)).1 (by decide),
   (begin_reinit s64 16 0x50 10 (some 1) (by decide)).2 (by decide)⟩

/-- C7: `end()` is not idempotent.  The first call on an initialized state
frees the buffer pointer and zeroes every field EXCEPT `typebuffer_`, which
keeps the dangling pointer value; a second call therefore frees the same
pointer again (a double free) instead of having no further effect. -/
theorem end_double_free :
    (end_ s64).1 = { initState with typebuffer_ := some 1 } ∧
    (end_ s64).2 = [1] ∧
    ((end_ s64).1).typebuffer_ ≠ none ∧
    (end_ (end_ s64).1).2 = [1] := by
  decide

theorem begin_rc (s : FramState) (hs : s.initialized_ = false)
    (dk a t p : Nat) (hdk : isDensitySupported dk = true)
    (ht : t ≤ densityToPageSize dk) :
    (begin s dk a t (some p)).1 = ResultCode.Success := by
  rw [begin_success_state s hs dk a t p hdk ht]

theorem begin_memorySize (s : FramState) (hs : s.initialized_ = false)
    (dk a t p : Nat) (hdk : isDensitySupported dk = true)
    (ht : t ≤ densityToPageSize dk) :
    ((begin s dk a t (some p)).2).memorySize_ = densityToMemorySize dk := by
  rw [begin_success_state s hs dk a t p hdk ht]

theorem begin_pageSize (s : FramState) (hs : s.initialized_ = false)
    (dk a t p : Nat) (hdk : isDensitySupported dk = true)
    (ht : t ≤ densityToPageSize dk) :
    ((begin s dk a t (some p)).2).pageSize_ = densityToPageSize dk := by
  rw [begin_success_state s hs dk a t p hdk ht]

theorem begin_pageCount (s : FramState) (hs : s.initialized_ = false)
    (dk a t p : Nat) (hdk : isDensitySupported dk = true)
    (ht : t ≤ densityToPageSize dk) :
    ((begin s dk a t (some p)).2).pageCount_ =
      densityToMemorySize dk / densityToPageSize dk % 256 := by
  rw [begin_success_state s hs dk a t p hdk ht]

theorem begin_abc (s : FramState) (hs : s.initialized_ = false)
    (dk a t p : Nat) (hdk : isDensitySupported dk = true)
    (ht : t ≤ densityToPageSize dk) :
    ((begin s dk a t (some p)).2).addressBytesCount_ =
      if densityToPageSize dk = 0x100 then 1 else 2 := by
  rw [begin_success_state s hs dk a t p hdk ht]

/-- C8: for every supported density, a successful initialization yields
memorySize = density * 128, the tiered page size (256 for 4/16 kb, the whole
memory for 64/128/256 kb, 65536 for 512/1024 kb), one address byte exactly
when the page size is 256, and a page size that divides the memory size with
pageSize * pageCount = memorySize. -/
theorem geometry_correct (s : FramState) (hs : s.initialized_ = false)
    (dk a t p : Nat) (hd : dk ∈ SupportedDensitiesInKiloBits)
    (ht : t ≤ densityToPageSize dk) :
    (begin s dk a t (some p)).1 = ResultCode.Success ∧
    ((begin s dk a t (some p)).2).memorySize_ = dk * 128 ∧
    ((dk = 4 ∨ dk = 16) → ((begin s dk a t (some p)).2).pageSize_ = 256) ∧
    ((dk = 64 ∨ dk = 128 ∨ dk = 256) →
      ((begin s dk a t (some p)).2).pageSize_ =
        ((begin s dk a t (some p)).2).memorySize_) ∧
    ((dk = 512 ∨ dk = 1024) →
      ((begin s dk a t (some p)).2).pageSize_ = 65536) ∧
    (((begin s dk a t (some p)).2).addressBytesCount_ =
      if ((begin s dk a t (some p)).2).pageSize_ = 256 then 1 else 2) ∧
    ((begin s dk a t (some p)).2).pageSize_ ∣
      ((begin s dk a t (some p)).2).memorySize_ ∧
    ((begin s dk a t (some p)).2).pageSize_ *
        ((begin s dk a t (some p)).2).pageCount_ =
      ((begin s dk a t (some p)).2).memorySize_ := by
  simp only [SupportedDensitiesInKiloBits, List.mem_cons,
    List.mem_singleton, List.not_mem_nil, or_false] at hd
  rcases hd with rfl | rfl | rfl | rfl | rfl | rfl | rfl <;>
    rw [begin_rc s hs _ a t p (by decide) ht,
      begin_memorySize s hs _ a t p (by decide) ht,
      begin_pageSize s hs _ a t p (by decide) ht,
      begin_pageCount s hs _ a t p (by decide) ht,
      begin_abc s hs _ a t p (by decide) ht] <;>
    decide

theorem geometry_correct_witness :
    (begin initState 1024 0x50 10 (some 1)).1 = ResultCode.Success ∧
    ((begin initState 1024 0x50 10 (some 1)).2).memorySize_ = 1024 * 128 ∧
    ((begin initState 1024 0x50 10 (some 1)).2).pageSize_ *
        ((begin initState 1024 0x50 10 (some 1)).2).pageCount_ =
      ((begin initState 1024 0x50 10 (some 1)).2).memorySize_ := by
  obtain ⟨h1, h2, -, -, -, -, -, h8⟩ :=
    geometry_correct initState rfl 1024 0x50 10 1 (by decide) (by decide)
  exact ⟨h1, h2, h8⟩

/-- C5 (amended): for `readBytes` and `writeBytes` validation is performed
before any bus activity, in the source order NotInitialized, then NullPtr
(whenever the pointer is null, regardless of the length), then InvalidPage,
then PageSizeRange; the first failing check determines the error and a
failing validation performs zero bus transactions. -/
theorem validation_order (s : FramState) (bus : Bus) (mem : Nat → Nat → Nat)
    (page address byteCount ptr k : Nat) (d : List Nat) :
    (s.initialized_ = false →
      readBytes s bus mem page address byteCount (some ptr) k =
          (ResultCode.NotInitializedError, [], [], k) ∧
        readBytes s bus mem page address byteCount none k =
          (ResultCode.NotInitializedError, [], [], k) ∧
        writeBytes s bus mem page address byteCount (some d) k =
          (ResultCode.NotInitializedError, [], mem, k) ∧
        writeBytes s bus mem page address byteCount none k =
          (ResultCode.NotInitializedError, [], mem, k)) ∧
    (s.initialized_ = true →
      readBytes s bus mem page address byteCount none k =
          (ResultCode.NullPtrError, [], [], k) ∧
        writeBytes s bus mem page address byteCount none k =
          (ResultCode.NullPtrError, [], mem, k)) ∧
    (s.initialized_ = true → s.pageCount_ ≤ page →
      readBytes s bus mem page address byteCount (some ptr) k =
          (ResultCode.InvalidPageError, [], [], k) ∧
        writeBytes s bus mem page address byteCount (some d) k =
          (ResultCode.InvalidPageError, [], mem, k)) ∧
    (s.initialized_ = true → ¬ s.pageCount_ ≤ page →
      (s.pageSize_ ≤ address ∨ s.pageSize_ < address + byteCount) →
      readBytes s bus mem page address byteCount (some ptr) k =
          (ResultCode.PageSizeRangeError, [], [], k) ∧
        writeBytes s bus mem page address byteCount (some d) k =
          (ResultCode.PageSizeRangeError, [], mem, k)) := by
  refine ⟨fun h => ?_, fun h => ?_, fun h hp => ?_, fun h hp hr => ?_⟩ <;>
    constructor <;> simp [readBytes, writeBytes, *]

theorem validation_order_witness :
    readBytes s64 busFF mem0 0 0 0 none 0 =
        (ResultCode.NullPtrError, [], [], 0) ∧
    writeBytes s64 busFF mem0 7 0 1 (some [1]) 0 =
        (ResultCode.InvalidPageError, [], mem0, 0) ∧
    readBytes s64 busFF mem0 0 9000 1 (some 0) 0 =
        (ResultCode.PageSizeRangeError, [], [], 0) :=
  ⟨((validation_order s64 busFF mem0 0 0 0 0 0 []).2.1 (by decide)).1,
   ((validation_order s64 busFF mem0 7 0 1 0 0 [1]).2.2.1 (by decide)
      (by decide)).2,
   ((validation_order s64 busFF mem0 0 9000 1 0 0 []).2.2.2 (by decide)
      (by decide) (by decide)).1⟩

/-- C5 counterexample: on the initialized 64-kilobit state, page 7 is out of
range (pageCount is 1) and the data pointer is null with byteCount 1 > 0.
The claimed order (InvalidPage before the null check) demands
InvalidPageError, but the source checks the null pointer first and returns
NullPtrError. -/
theorem validation_order_counterexample :
    (readBytes s64 busFF mem0 7 0 1 none 0).1 = ResultCode.NullPtrError ∧
    s64.pageCount_ ≤ 7 ∧
    ResultCode.NullPtrError ≠ ResultCode.InvalidPageError := by
  decide

/-- C9: for the typed accessors `read<T>` / `write<T>` (with `sizeT` playing
the role of `sizeof(T)`), a value larger than the configured scratch buffer
is rejected with BufferOverflowError and zero bus transactions; and whenever
`read<T>` returns a non-Success code the caller's output bytes `t` are
returned unchanged. -/
theorem typed_access_guard (s : FramState) (bus : Bus)
    (mem : Nat → Nat → Nat) (page address sizeT k : Nat) (t : List Nat) :
    (s.typebufferSize_ < sizeT →
      read_T s bus mem page address sizeT t k =
          (ResultCode.BufferOverflowError, [], t, k) ∧
        write_T s bus mem page address sizeT t k =
          (ResultCode.BufferOverflowError, [], mem, k)) ∧
    ((read_T s bus mem page address sizeT t k).1 ≠ ResultCode.Success →
      (read_T s bus mem page address sizeT t k).2.2.1 = t) := by
  constructor
  · intro h
    constructor <;> simp [read_T, write_T, h]
  · intro h
    by_cases hb : s.typebufferSize_ < sizeT
    · simp [read_T, hb]
    · by_cases hr : (readBytes s bus mem page address sizeT s.typebuffer_
          k).1 = ResultCode.Success
      · exact absurd (by simp [read_T, hb, hr]) h
      · simp [read_T, hb, hr]

theorem typed_access_guard_witness :
    read_T initState busFF mem0 0 0 1 [7] 0 =
        (ResultCode.BufferOverflowError, [], [7], 0) ∧
    (read_T initState busFF mem0 0 0 0 [7] 0).2.2.1 = [7] :=
  ⟨((typed_access_guard initState busFF mem0 0 0 1 0 [7]).1 (by decide)).1,
   (typed_access_guard initState busFF mem0 0 0 0 0 [7]).2 (by decide)⟩

/-- C10: the identity accessors perform no initialization check: on any
uninitialized state (whose bus address is necessarily still 0) they run the
full identification query at the reserved address 0x7C, framed with the
byte `i2cAddress_ << 1 = 0`, instead of failing with NotInitializedError —
whereas readBytes, writeBytes and fill reject the same state with
NotInitializedError and zero bus transactions. -/
theorem accessors_skip_init_check (s : FramState) (bus : Bus)
    (mem : Nat → Nat → Nat) (page address byteCount value ptr k : Nat)
    (d : List Nat) (hs : s.initialized_ = false) (ha : s.i2cAddress_ = 0)
    (hchk : s.deviceIdChecked_ = false) (hff : FaultFree bus) :
    (isDeviceIdSupported s bus k).2.2.1 =
        [BusOp.beginEnd 0x7C [0] true, BusOp.request 0x7C 3] ∧
    (manufacturerId s bus k).2.2.1 =
        [BusOp.beginEnd 0x7C [0] true, BusOp.request 0x7C 3] ∧
    (productId s bus k).2.2.1 =
        [BusOp.beginEnd 0x7C [0] true, BusOp.request 0x7C 3] ∧
    readBytes s bus mem page address byteCount (some ptr) k =
        (ResultCode.NotInitializedError, [], [], k) ∧
    writeBytes s bus mem page address byteCount (some d) k =
        (ResultCode.NotInitializedError, [], mem, k) ∧
    fill s bus mem page address byteCount value k =
        (ResultCode.NotInitializedError, [], mem, k) := by
  obtain ⟨hq, he, hr⟩ := hff
  refine ⟨?_, ?_, ?_, ?_, ?_, ?_⟩ <;>
    simp [isDeviceIdSupported, manufacturerId, productId, getDeviceId,
      readBytes, writeBytes, fill, TwiSuccess, hs, ha, hchk, hq, he, hr]

theorem accessors_skip_init_check_witness :
    (isDeviceIdSupported initState busFF 0).2.2.1 =
        [BusOp.beginEnd 0x7C [0] true, BusOp.request 0x7C 3] ∧
    readBytes initState busFF mem0 0 0 0 (some 0) 0 =
        (ResultCode.NotInitializedError, [], [], 0) :=
  ⟨(accessors_skip_init_check initState busFF mem0 0 0 0 0 0 0 [] rfl rfl
      rfl busFF_faultFree).1,
   (accessors_skip_init_check initState busFF mem0 0 0 0 0 0 0 [] rfl rfl
      rfl busFF_faultFree).2.2.2.1⟩

/-- C1: for every validated request on a well-formed initialized state over
a fault-free transport, the chunk engines of writeBytes, fill and readBytes
succeed and issue exactly ceil(len / chunkSize) transactions (chunkSize =
32 minus the address-byte count for write/fill, 32 for read) whose
(address, length) pairs partition the requested range in order, with no
overlap and no gap, the in-page address advancing by the chunk size each
iteration; concretely, on the 64-kilobit device (pageSize 8192, 2 address
bytes, 30 usable data bytes per write chunk), fill(page 0, address 100,
length 50, value 0xAA) issues exactly two write transactions: address 100
length 30 then address 130 length 20. -/
theorem chunk_engine_covers (s : FramState) (bus : Bus)
    (mem : Nat → Nat → Nat) (page address len ptr value k : Nat)
    (d : List Nat) (hwf : WellFormed s) (hff : FaultFree bus)
    (hpage : page < s.pageCount_) (haddr : address < s.pageSize_)
    (hlen : address + len ≤ s.pageSize_) :
    ((writeBytes s bus mem page address len (some d) k).1 =
        ResultCode.Success ∧
      (writeBytes s bus mem page address len (some d) k).2.1.length =
        (len + (I2CBufferLength - s.addressBytesCount_) - 1) /
          (I2CBufferLength - s.addressBytesCount_) ∧
      chainChunks (I2CBufferLength - s.addressBytesCount_) address len
        ((writeBytes s bus mem page address len (some d) k).2.1.map
          fun t => (t.framAddr, t.len)) = true) ∧
    ((fill s bus mem page address len value k).1 = ResultCode.Success ∧
      (fill s bus mem page address len value k).2.1.length =
        (len + (I2CBufferLength - s.addressBytesCount_) - 1) /
          (I2CBufferLength - s.addressBytesCount_) ∧
      chainChunks (I2CBufferLength - s.addressBytesCount_) address len
        ((fill s bus mem page address len value k).2.1.map
          fun t => (t.framAddr, t.len)) = true) ∧
    ((readBytes s bus mem page address len (some ptr) k).1 =
        ResultCode.Success ∧
      (readBytes s bus mem page address len (some ptr) k).2.1.length =
        (len + 32 - 1) / 32 ∧
      chainChunks 32 address len
        ((readBytes s bus mem page address len (some ptr) k).2.1.map
          fun t => (t.framAddr, t.len)) = true) ∧
    (fill s64 busFF mem0 0 100 50 0xAA 0).2.1 =
      [⟨0x50, 100, 30, List.replicate 30 0xAA⟩,
       ⟨0x50, 130, 20, List.replicate 20 0xAA⟩] := by
  obtain ⟨hinit, habc, hps⟩ := hwf
  have husable : 0 < I2CBufferLength - s.addressBytesCount_ := by
    rcases habc with h | h <;> rw [h] <;> decide
  have hbnd : address + len ≤ 65536 := by omega
  rw [writeBytes_valid s bus mem page address len d k hinit (by omega)
      (by omega) (by omega),
    fill_valid s bus mem page address len value k hinit (by omega)
      (by omega) (by omega),
    readBytes_valid s bus mem page address len ptr k hinit (by omega)
      (by omega) (by omega)]
  obtain ⟨w1, w2, w3, -⟩ := writeLoop_ff bus hff s.addressBytesCount_
    (I2CBufferLength - s.addressBytesCount_) ((s.i2cAddress_ + page) % 256)
    husable len mem address len d k le_rfl hbnd
  obtain ⟨f1, f2, f3⟩ := fillLoop_ff bus hff s.addressBytesCount_
    (I2CBufferLength - s.addressBytesCount_) ((s.i2cAddress_ + page) % 256)
    value husable len mem address len k le_rfl hbnd
  obtain ⟨r1, r2, r3, -⟩ := readLoop_ff bus hff s.addressBytesCount_
    ((s.i2cAddress_ + page) % 256) len mem address len k le_rfl hbnd
  exact ⟨⟨w1, w2, w3⟩, ⟨f1, f2, f3⟩, ⟨r1, r2, r3⟩, rfl⟩

theorem chunk_engine_covers_witness :
    (writeBytes s64 busFF mem0 0 100 50 (some (List.replicate 50 1))
        0).2.1.length =
      (50 + (I2CBufferLength - s64.addressBytesCount_) - 1) /
        (I2CBufferLength - s64.addressBytesCount_) ∧
    (fill s64 busFF mem0 0 100 50 0xAA 0).2.1 =
      [⟨0x50, 100, 30, List.replicate 30 0xAA⟩,
       ⟨0x50, 130, 20, List.replicate 20 0xAA⟩] :=
  ⟨(chunk_engine_covers s64 busFF mem0 0 100 50 0 0xAA 0
      (List.replicate 50 1) (by decide) busFF_faultFree (by decide)
      (by decide) (by decide)).1.2.1,
   (chunk_engine_covers s64 busFF mem0 0 100 50 0 0xAA 0
      (List.replicate 50 1) (by decide) busFF_faultFree (by decide)
      (by decide) (by decide)).2.2.2⟩

/-- C2 (amended): on an initialized well-formed state over a fault-free
transport, for every page < pageCount and every range with
address < pageSize and address + len ≤ pageSize, writeBytes of a buffer of
len bytes followed by readBytes of the same (page, address, len) returns
Success both times and yields exactly the written bytes. -/
theorem write_read_roundtrip (s : FramState) (bus : Bus)
    (mem : Nat → Nat → Nat) (page address len ptr k : Nat) (d : List Nat)
    (hwf : WellFormed s) (hff : FaultFree bus) (hd : d.length = len)
    (hpage : page < s.pageCount_) (haddr : address < s.pageSize_)
    (hlen : address + len ≤ s.pageSize_) :
    (writeBytes s bus mem page address len (some d) k).1 =
        ResultCode.Success ∧
    (readBytes s bus
        ((writeBytes s bus mem page address len (some d) k).2.2.1) page
        address len (some ptr)
        ((writeBytes s bus mem page address len (some d) k).2.2.2)).1 =
        ResultCode.Success ∧
    (readBytes s bus
        ((writeBytes s bus mem page address len (some d) k).2.2.1) page
        address len (some ptr)
        ((writeBytes s bus mem page address len (some d) k).2.2.2)).2.2.1 =
      d := by
  obtain ⟨hinit, habc, hps⟩ := hwf
  have husable : 0 < I2CBufferLength - s.addressBytesCount_ := by
    rcases habc with h | h <;> rw [h] <;> decide
  have hbnd : address + len ≤ 65536 := by omega
  rw [writeBytes_valid s bus mem page address len d k hinit (by omega)
    (by omega) (by omega)]
  obtain ⟨w1, -, -, w4⟩ := writeLoop_ff bus hff s.addressBytesCount_
    (I2CBufferLength - s.addressBytesCount_) ((s.i2cAddress_ + page) % 256)
    husable len mem address len d k le_rfl hbnd
  refine ⟨w1, ?_, ?_⟩
  · rw [readBytes_valid s bus _ page address len ptr _ hinit (by omega)
      (by omega) (by omega)]
    exact (readLoop_ff bus hff s.addressBytesCount_
      ((s.i2cAddress_ + page) % 256) len _ address len _ le_rfl hbnd).1
  · rw [readBytes_valid s bus _ page address len ptr _ hinit (by omega)
      (by omega) (by omega)]
    rw [(readLoop_ff bus hff s.addressBytesCount_
      ((s.i2cAddress_ + page) % 256) len _ address len _ le_rfl
      hbnd).2.2.2]
    have hmm : ∀ i ∈ List.range len,
        (writeLoop bus s.addressBytesCount_
            (I2CBufferLength - s.addressBytesCount_)
            ((s.i2cAddress_ + page) % 256) len mem address len d k).2.2.1
          ((s.i2cAddress_ + page) % 256) (address + i) = d.getD i 0 := by
      intro i hi
      rw [List.mem_range] at hi
      rw [w4 (by omega) ((s.i2cAddress_ + page) % 256) (address + i),
        if_pos ⟨rfl, by omega, by omega⟩]
      congr 1
      omega
    rw [List.map_congr_left hmm, ← hd, range_map_getD]

theorem write_read_roundtrip_witness :
    (readBytes s64 busFF
        ((writeBytes s64 busFF mem0 0 100 3 (some [9, 8, 7]) 0).2.2.1) 0 100
        3 (some 5)
        ((writeBytes s64 busFF mem0 0 100 3 (some [9, 8, 7]) 0).2.2.2)).2.2.1 =
      [9, 8, 7] :=
  (write_read_roundtrip s64 busFF mem0 0 100 3 5 0 [9, 8, 7] (by decide)
    busFF_faultFree rfl (by decide) (by decide) (by decide)).2.2

/-- C2 counterexample: the claim quantifies over every (page, address,
length) with page < pageCount and address + length ≤ pageSize, but the
source also rejects address ≥ pageSize: on the 64-kilobit device the
boundary input (page 0, address 8192, length 0) satisfies the claim's
precondition (8192 + 0 ≤ 8192) yet writeBytes returns PageSizeRangeError,
not the claimed Success. -/
theorem write_read_roundtrip_counterexample :
    (writeBytes s64 busFF mem0 0 8192 0 (some []) 0).1 =
        ResultCode.PageSizeRangeError ∧
    0 < s64.pageCount_ ∧ 8192 + 0 ≤ s64.pageSize_ ∧
    ResultCode.PageSizeRangeError ≠ ResultCode.Success := by
  decide

end FramI2C
